import Mathlib

/-!
Shallow embedding of the Py2ChainMap repository (a backport of Python 3's
`collections.ChainMap` to Python 2, file `src/__init__.py`), together with
theorems settling the specification claims about it.

A Python dict is modelled as an association list with the usual dict
operations (lookup raising `KeyError` becomes `Option`; insertion-order
preservation and in-place overwrite are modelled directly).  A `ChainMap`
is a list of such dicts (`self.maps`).  Operations that can raise become
`Except`-valued functions; the error value carries the missing key
(Python's `KeyError(key)` / the spec's `MissingKey(key)`), or `Unit` for
`popitem`'s empty-dict failure (the spec's `EmptyMapping`).
-/

namespace Py2ChainMap

variable {K V : Type} [DecidableEq K]

/-- A Python mapping (dict) as an insertion-ordered association list. -/
abbrev Dict (K V : Type) := List (K × V)

namespace Dict

/-- Python `mapping[key]`: `none` models the dict raising `KeyError`. -/
def find? : Dict K V → K → Option V
  | [], _ => none
  | (a, b) :: rest, k => if a = k then some b else find? rest k

/-- Python `key in mapping`. -/
def hasKey (d : Dict K V) (k : K) : Bool := (find? d k).isSome

/-- Python `mapping[key] = value`: overwrite in place if present, else append. -/
def insert : Dict K V → K → V → Dict K V
  | [], k, v => [(k, v)]
  | (a, b) :: rest, k, v =>
      if a = k then (k, v) :: rest else (a, b) :: insert rest k v

/-- Remove the (first) entry for `k`; identity when `k` is absent. -/
def erase : Dict K V → K → Dict K V
  | [], _ => []
  | (a, b) :: rest, k => if a = k then rest else (a, b) :: erase rest k

/-- Python `del mapping[key]`: `none` models the dict raising `KeyError`. -/
def delete (d : Dict K V) (k : K) : Option (Dict K V) :=
  if hasKey d k then some (erase d k) else none

/-- The keys of the dict, in insertion order. -/
def keys (d : Dict K V) : List K := d.map Prod.fst

end Dict

/-- The ChainMap state: `self.maps`, the public list of underlying mappings. -/
structure ChainMap (K V : Type) where
  maps : List (Dict K V)

namespace ChainMap

/-- Python `__init__`: `self.maps = list(maps) or [{}]` — an empty argument
list yields one empty dict, otherwise the given maps in the given order. -/
def init (ms : List (Dict K V)) : ChainMap K V :=
  ⟨if ms.isEmpty then [([] : Dict K V)] else ms⟩

/-- The scan of `__getitem__`: try each mapping in order, swallowing
`KeyError`; when every mapping misses, `__missing__` raises `KeyError(key)`,
modelled as `Except.error k`. -/
def lookupList : List (Dict K V) → K → Except K V
  | [], k => .error k
  | m :: rest, k =>
      match Dict.find? m k with
      | some v => .ok v
      | none => lookupList rest k

/-- Python `__getitem__`. -/
def getitem (c : ChainMap K V) (k : K) : Except K V := lookupList c.maps k

/-- Python `__contains__`: `any(key in m for m in self.maps)`. -/
def hasKey (c : ChainMap K V) (k : K) : Bool :=
  c.maps.any (fun m => Dict.hasKey m k)

/-- Python `get`: `self[key] if key in self else default`.  The `error`
branch of the match is unreachable: when `hasKey` holds, `getitem`
succeeds. -/
def get (c : ChainMap K V) (k : K) (d : V) : V :=
  if c.hasKey k then
    match c.getitem k with
    | .ok v => v
    | .error _ => d
  else d

/-- The concatenation of all layers' keys, in layer order; the set
`set().union(*self.maps)` of `__len__`/`__iter__` is its deduplication. -/
def allKeys (c : ChainMap K V) : List K :=
  c.maps.foldr (fun m acc => Dict.keys m ++ acc) []

/-- Python `__len__`: `len(set().union(*self.maps))`. -/
def size (c : ChainMap K V) : Nat := c.allKeys.dedup.length

/-- Python `new_child`: `m = {} if m is None`, then
`self.__class__(m, *self.maps[1:])`.  Note the source passes
`self.maps[1:]`, dropping the original `maps[0]`. -/
def new_child (c : ChainMap K V) (m : Option (Dict K V)) : ChainMap K V :=
  init ((m.getD []) :: c.maps.drop 1)

/-- Python `parents`: `self.__class__(*self.maps[1:])`. -/
def parents (c : ChainMap K V) : ChainMap K V := init (c.maps.drop 1)

/-- Python `__setitem__` (base variant): `self.maps[0][key] = value`.  The
`[]` branch is unreachable: every constructed instance has at least one
layer. -/
def setitem (c : ChainMap K V) (k : K) (v : V) : ChainMap K V :=
  match c.maps with
  | [] => c
  | m :: rest => ⟨Dict.insert m k v :: rest⟩

/-- Python `__delitem__` (base variant): `del self.maps[0][key]`, re-raising
`KeyError` with the key when `maps[0]` lacks it.  The `[]` branch is
unreachable for constructed instances. -/
def delitem (c : ChainMap K V) (k : K) : Except K (ChainMap K V) :=
  match c.maps with
  | [] => .error k
  | m :: rest =>
      match Dict.delete m k with
      | some d => .ok ⟨d :: rest⟩
      | none => .error k

/-- Python `popitem`: `self.maps[0].popitem()`, raising (the spec's
`EmptyMapping`) when `maps[0]` is empty.  Which pair the dict yields is
implementation-defined; the model pops the first entry. -/
def popitem (c : ChainMap K V) : Except Unit ((K × V) × ChainMap K V) :=
  match c.maps with
  | [] => .error ()
  | [] :: _ => .error ()
  | (p :: ps) :: rest => .ok (p, ⟨ps :: rest⟩)

/-- Python `clear`: `self.maps[0].clear()`, leaving `maps[1:]` intact.  The
`[]` branch is unreachable for constructed instances. -/
def clear (c : ChainMap K V) : ChainMap K V :=
  match c.maps with
  | [] => c
  | _ :: rest => ⟨([] : Dict K V) :: rest⟩

end ChainMap

namespace DeepChainMap

/-- The loop of `DeepChainMap.__setitem__`: overwrite `key` in the first
mapping that contains it. -/
def setFirst : List (Dict K V) → K → V → List (Dict K V)
  | [], _, _ => []
  | m :: rest, k, v =>
      if Dict.hasKey m k then Dict.insert m k v :: rest
      else m :: setFirst rest k v

/-- Python `DeepChainMap.__setitem__`: scan `self.maps` and overwrite in the
first mapping already containing the key; when none does, fall through to
`self.maps[0][key] = value` (the base-variant write). -/
def setitem (c : ChainMap K V) (k : K) (v : V) : ChainMap K V :=
  if c.hasKey k then ⟨setFirst c.maps k v⟩ else c.setitem k v

end DeepChainMap

/-- Spec-side definition for claim C5: the union of the key sets of all
layers, as a finite set. -/
def specKeyUnion (c : ChainMap K V) : Finset K :=
  c.maps.foldr (fun m s => (Dict.keys m).toFinset ∪ s) ∅

/-! ### Helper lemmas about the dict model -/

lemma Dict.hasKey_false_iff (d : Dict K V) (k : K) :
    Dict.hasKey d k = false ↔ Dict.find? d k = none := by
  cases h : Dict.find? d k <;> simp [Dict.hasKey, h]

lemma Dict.hasKey_true_iff (d : Dict K V) (k : K) :
    Dict.hasKey d k = true ↔ ∃ v, Dict.find? d k = some v := by
  cases h : Dict.find? d k <;> simp [Dict.hasKey, h]

lemma Dict.find?_insert_self (d : Dict K V) (k : K) (v : V) :
    Dict.find? (Dict.insert d k v) k = some v := by
  induction d with
  | nil => simp [Dict.insert, Dict.find?]
  | cons p rest ih =>
      obtain ⟨a, b⟩ := p
      by_cases h : a = k
      · simp [Dict.insert, Dict.find?, h]
      · simp [Dict.insert, Dict.find?, h, ih]

lemma Dict.find?_insert_ne (d : Dict K V) (k j : K) (v : V) (h : j ≠ k) :
    Dict.find? (Dict.insert d k v) j = Dict.find? d j := by
  induction d with
  | nil => simp [Dict.insert, Dict.find?, Ne.symm h]
  | cons p rest ih =>
      obtain ⟨a, b⟩ := p
      by_cases ha : a = k
      · subst ha
        simp [Dict.insert, Dict.find?, Ne.symm h]
      · simp [Dict.insert, Dict.find?, ha, ih]

lemma Dict.find?_erase_ne (d : Dict K V) (k j : K) (h : j ≠ k) :
    Dict.find? (Dict.erase d k) j = Dict.find? d j := by
  induction d with
  | nil => simp [Dict.erase]
  | cons p rest ih =>
      obtain ⟨a, b⟩ := p
      by_cases ha : a = k
      · subst ha
        simp [Dict.erase, Dict.find?, Ne.symm h]
      · simp [Dict.erase, Dict.find?, ha, ih]

lemma Dict.find?_eq_none_of_not_mem (d : Dict K V) (k : K)
    (h : k ∉ Dict.keys d) : Dict.find? d k = none := by
  induction d with
  | nil => simp [Dict.find?]
  | cons p rest ih =>
      obtain ⟨a, b⟩ := p
      simp only [Dict.keys, List.map_cons, List.mem_cons] at h
      push_neg at h
      simp [Dict.find?, Ne.symm h.1, ih (by simpa [Dict.keys] using h.2)]

lemma Dict.hasKey_erase_self (d : Dict K V) (k : K)
    (hnd : (Dict.keys d).Nodup) : Dict.hasKey (Dict.erase d k) k = false := by
  rw [Dict.hasKey_false_iff]
  induction d with
  | nil => simp [Dict.erase, Dict.find?]
  | cons p rest ih =>
      obtain ⟨a, b⟩ := p
      simp only [Dict.keys, List.map_cons, List.nodup_cons] at hnd
      by_cases ha : a = k
      · subst ha
        simp only [Dict.erase, if_pos rfl]
        exact Dict.find?_eq_none_of_not_mem rest a hnd.1
      · simp [Dict.erase, Dict.find?, ha, ih hnd.2]

/-! ### Helper lemmas about the layer scan -/

lemma ChainMap.lookupList_ok_iff (ms : List (Dict K V)) (k : K) :
    (∃ v, ChainMap.lookupList ms k = Except.ok v) ↔
      ms.any (fun m => Dict.hasKey m k) = true := by
  induction ms with
  | nil => simp [ChainMap.lookupList]
  | cons m rest ih =>
      cases h : Dict.find? m k with
      | some v => simp [ChainMap.lookupList, h, Dict.hasKey]
      | none => simp [ChainMap.lookupList, h, Dict.hasKey, ih]

lemma ChainMap.lookupList_error (ms : List (Dict K V)) (k : K)
    (h : ms.any (fun m => Dict.hasKey m k) = false) :
    ChainMap.lookupList ms k = Except.error k := by
  induction ms with
  | nil => simp [ChainMap.lookupList]
  | cons m rest ih =>
      simp only [List.any_cons, Bool.or_eq_false_iff] at h
      rw [ChainMap.lookupList, (Dict.hasKey_false_iff m k).mp h.1]
      exact ih h.2

lemma ChainMap.lookupList_append (pre ms : List (Dict K V)) (k : K)
    (h : ∀ m ∈ pre, Dict.hasKey m k = false) :
    ChainMap.lookupList (pre ++ ms) k = ChainMap.lookupList ms k := by
  induction pre with
  | nil => rfl
  | cons m rest ih =>
      rw [List.cons_append, ChainMap.lookupList,
        (Dict.hasKey_false_iff m k).mp (h m (List.mem_cons_self m rest))]
      exact ih fun p hp => h p (List.mem_cons_of_mem m hp)

omit [DecidableEq K] in
lemma ChainMap.init_ne_nil (ms : List (Dict K V)) :
    (ChainMap.init ms).maps ≠ [] := by
  cases ms <;> simp [ChainMap.init]

lemma DeepChainMap.setFirst_append (pre : List (Dict K V)) (mi : Dict K V)
    (suf : List (Dict K V)) (k : K) (v : V)
    (hpre : ∀ m ∈ pre, Dict.hasKey m k = false) (hmi : Dict.hasKey mi k = true) :
    DeepChainMap.setFirst (pre ++ mi :: suf) k v =
      pre ++ Dict.insert mi k v :: suf := by
  induction pre with
  | nil => simp [DeepChainMap.setFirst, hmi]
  | cons m rest ih =>
      have htail := ih fun p hp => hpre p (List.mem_cons_of_mem m hp)
      rw [List.cons_append, DeepChainMap.setFirst,
        hpre m (List.mem_cons_self m rest)]
      simp [htail]

lemma allKeys_toFinset (ms : List (Dict K V)) :
    (ChainMap.allKeys (⟨ms⟩ : ChainMap K V)).toFinset = specKeyUnion ⟨ms⟩ := by
  induction ms with
  | nil => simp [ChainMap.allKeys, specKeyUnion]
  | cons m rest ih =>
      show (Dict.keys m ++ ChainMap.allKeys (⟨rest⟩ : ChainMap K V)).toFinset
          = (Dict.keys m).toFinset ∪ specKeyUnion ⟨rest⟩
      rw [List.toFinset_append, ih]

/-! ### The claims -/

/-- Claim C1, divergence evidence: on a ChainMap with layers
`[{0:1}, {1:2}]`, `new_child({2:3})` produces layers `[{2:3}, {1:2}]` — the
original layer 0 is dropped because the source passes `*self.maps[1:]` —
rather than the `[{2:3}, {0:1}, {1:2}]` that the claim, the method's own
docstring and CPython's `new_child` (which passes `*self.maps`) require. -/
theorem new_child_drops_layer_zero :
    ((ChainMap.init [[(0, 1)], [(1, 2)]] : ChainMap Nat Nat).new_child
        (some [(2, 3)])).maps = [[(2, 3)], [(1, 2)]] ∧
    ([[(2, 3)], [(1, 2)]] : List (Dict Nat Nat)) ≠
      [[(2, 3)], [(0, 1)], [(1, 2)]] :=
  ⟨rfl, by decide⟩

/-- Claim C2: the strict lookup `getitem` succeeds iff `hasKey` holds; on
success it returns the value from the lowest-indexed layer containing the
key (the layer all of whose predecessors lack the key), and when no layer
contains the key it fails carrying that key. -/
theorem getitem_iff_hasKey (c : ChainMap K V) (k : K) :
    ((∃ v, c.getitem k = Except.ok v) ↔ c.hasKey k = true) ∧
    (∀ (pre : List (Dict K V)) (m : Dict K V) (suf : List (Dict K V)) (v : V),
      c.maps = pre ++ m :: suf → (∀ p ∈ pre, Dict.hasKey p k = false) →
      Dict.find? m k = some v → c.getitem k = Except.ok v) ∧
    (c.hasKey k = false → c.getitem k = Except.error k) := by
  refine ⟨ChainMap.lookupList_ok_iff c.maps k, ?_, ?_⟩
  · intro pre m suf v hmaps hpre hfind
    show ChainMap.lookupList c.maps k = Except.ok v
    rw [hmaps, ChainMap.lookupList_append pre (m :: suf) k hpre]
    simp [ChainMap.lookupList, hfind]
  · intro h
    exact ChainMap.lookupList_error c.maps k h

/-- Witness for claim C2: a key found in layer 1 (not layer 0), and a key
found nowhere. -/
theorem getitem_iff_hasKey_witness :
    (ChainMap.init [[(1, 10)], [(1, 11), (2, 12)]] : ChainMap Nat Nat).getitem 2
        = Except.ok 12 ∧
    (ChainMap.init [[(1, 10)]] : ChainMap Nat Nat).getitem 5 = Except.error 5 := by
  constructor
  · exact (getitem_iff_hasKey (ChainMap.init [[(1, 10)], [(1, 11), (2, 12)]]) 2).2.1
      [[(1, 10)]] [(1, 11), (2, 12)] [] 12 rfl (by decide) (by decide)
  · exact (getitem_iff_hasKey (ChainMap.init [[(1, 10)]]) 5).2.2 (by decide)

/-- Claim C3: base-variant delete fails with the missing key exactly when
layer 0 lacks it — whatever the lower layers hold — and otherwise removes
the key from layer 0 only, leaving every other layer unchanged. -/
theorem delitem_layer_zero (m0 : Dict K V) (rest : List (Dict K V)) (k : K)
    (hnd : (Dict.keys m0).Nodup) :
    (Dict.hasKey m0 k = false →
      ChainMap.delitem ⟨m0 :: rest⟩ k = Except.error k) ∧
    (Dict.hasKey m0 k = true →
      ChainMap.delitem ⟨m0 :: rest⟩ k = Except.ok ⟨Dict.erase m0 k :: rest⟩ ∧
      Dict.hasKey (Dict.erase m0 k) k = false ∧
      ∀ j, j ≠ k → Dict.find? (Dict.erase m0 k) j = Dict.find? m0 j) := by
  constructor
  · intro h
    simp [ChainMap.delitem, Dict.delete, h]
  · intro h
    refine ⟨?_, Dict.hasKey_erase_self m0 k hnd,
      fun j hj => Dict.find?_erase_ne m0 k j hj⟩
    simp [ChainMap.delitem, Dict.delete, h]

/-- Witness for claim C3: deleting key 1 succeeds when layer 0 holds it,
and fails when only layer 1 holds it. -/
theorem delitem_layer_zero_witness :
    ChainMap.delitem (⟨[[(1, 2), (3, 4)], [(1, 9)]]⟩ : ChainMap Nat Nat) 1
        = Except.ok ⟨[[(3, 4)], [(1, 9)]]⟩ ∧
    ChainMap.delitem (⟨[[(3, 4)], [(1, 9)]]⟩ : ChainMap Nat Nat) 1
        = Except.error 1 := by
  constructor
  · exact ((delitem_layer_zero [(1, 2), (3, 4)] [[(1, 9)]] 1 (by decide)).2
      (by decide)).1
  · exact (delitem_layer_zero [(3, 4)] [[(1, 9)]] 1 (by decide)).1 (by decide)

/-- Claim C4: deep-variant set overwrites the key in the first layer that
contains it, leaving every other layer (layer 0 included) unchanged, and
creates the entry in layer 0 when no layer contains the key. -/
theorem deep_setitem_first_layer (k : K) (v : V) :
    (∀ (pre : List (Dict K V)) (mi : Dict K V) (suf : List (Dict K V)),
      (∀ p ∈ pre, Dict.hasKey p k = false) → Dict.hasKey mi k = true →
      (DeepChainMap.setitem ⟨pre ++ mi :: suf⟩ k v).maps
          = pre ++ Dict.insert mi k v :: suf ∧
      Dict.find? (Dict.insert mi k v) k = some v) ∧
    (∀ (m0 : Dict K V) (rest : List (Dict K V)),
      (∀ p ∈ m0 :: rest, Dict.hasKey p k = false) →
      (DeepChainMap.setitem ⟨m0 :: rest⟩ k v).maps
          = Dict.insert m0 k v :: rest) := by
  constructor
  · intro pre mi suf hpre hmi
    have hany : ChainMap.hasKey (⟨pre ++ mi :: suf⟩ : ChainMap K V) k = true := by
      simp only [ChainMap.hasKey, List.any_eq_true]
      exact ⟨mi, by simp, hmi⟩
    refine ⟨?_, Dict.find?_insert_self mi k v⟩
    simp [DeepChainMap.setitem, hany,
      DeepChainMap.setFirst_append pre mi suf k v hpre hmi]
  · intro m0 rest hall
    have hany : ChainMap.hasKey (⟨m0 :: rest⟩ : ChainMap K V) k = false := by
      simp only [ChainMap.hasKey, List.any_eq_false]
      intro p hp
      simp [hall p hp]
    simp [DeepChainMap.setitem, hany, ChainMap.setitem]

/-- Witness for claim C4: key 5 lives in layer 1 only, so the deep write
updates layer 1 in place and leaves layer 0 alone; a fresh key goes to
layer 0. -/
theorem deep_setitem_first_layer_witness :
    (DeepChainMap.setitem (⟨[[(0, 1)], [(5, 7)]]⟩ : ChainMap Nat Nat) 5 9).maps
        = [[(0, 1)], [(5, 9)]] ∧
    (DeepChainMap.setitem (⟨[[(0, 1)]]⟩ : ChainMap Nat Nat) 5 9).maps
        = [[(0, 1), (5, 9)]] := by
  constructor
  · exact ((deep_setitem_first_layer 5 9).1 [[(0, 1)]] [(5, 7)] []
      (by decide) (by decide)).1
  · exact (deep_setitem_first_layer 5 9).2 [(0, 1)] [] (by decide)

/-- Claim C5: `size` equals the cardinality of the union of the layers'
key sets; a key present in several layers counts once. -/
theorem size_eq_card_keyUnion (c : ChainMap K V) :
    c.size = (specKeyUnion c).card := by
  obtain ⟨ms⟩ := c
  simp only [ChainMap.size]
  rw [← List.card_toFinset, allKeys_toFinset]

/-- Claim C6: `get` with a default is total: it returns the strict lookup's
value when some layer contains the key, and the default when none does. -/
theorem get_default_total (c : ChainMap K V) (k : K) (d : V) :
    (∃ v, c.getitem k = Except.ok v ∧ c.get k d = v) ∨
    (c.getitem k = Except.error k ∧ c.get k d = d) := by
  by_cases h : c.hasKey k = true
  · obtain ⟨v, hv⟩ := (ChainMap.lookupList_ok_iff c.maps k).mpr h
    left
    exact ⟨v, hv, by simp [ChainMap.get, ChainMap.getitem, h, hv]⟩
  · right
    have hf : c.hasKey k = false := by simpa using h
    exact ⟨ChainMap.lookupList_error c.maps k hf,
      by simp [ChainMap.get, hf]⟩

omit [DecidableEq K] in
/-- Claim C7: every constructed instance has at least one layer: zero given
layers yield exactly one empty mapping, and one or more given layers are
stored exactly as given, in order. -/
theorem init_at_least_one_layer (ms : List (Dict K V)) :
    (ms = [] → (ChainMap.init ms).maps = [([] : Dict K V)]) ∧
    (ms ≠ [] → (ChainMap.init ms).maps = ms) ∧
    (ChainMap.init ms).maps ≠ [] := by
  cases ms with
  | nil => exact ⟨fun _ => rfl, fun h => absurd rfl h, by simp [ChainMap.init]⟩
  | cons m rest =>
      refine ⟨fun h => by simp at h, fun _ => rfl, ?_⟩
      simp [ChainMap.init]

/-- Witness for claim C7: the zero-layer and two-layer constructions. -/
theorem init_at_least_one_layer_witness :
    (ChainMap.init ([] : List (Dict Nat Nat))).maps = [([] : Dict Nat Nat)] ∧
    (ChainMap.init [[(1, 2)], [(3, 4)]] : ChainMap Nat Nat).maps
        = [[(1, 2)], [(3, 4)]] :=
  ⟨(init_at_least_one_layer []).1 rfl,
   (init_at_least_one_layer [[(1, 2)], [(3, 4)]]).2.1 (by simp)⟩

omit [DecidableEq K] in
/-- Claim C8: `popitem` fails exactly when layer 0 is empty — whatever the
other layers hold — and otherwise removes and returns a pair of layer 0. -/
theorem popitem_layer_zero (m0 : Dict K V) (rest : List (Dict K V)) :
    (m0 = [] → ChainMap.popitem ⟨m0 :: rest⟩ = Except.error ()) ∧
    (∀ p ps, m0 = p :: ps →
      ChainMap.popitem ⟨m0 :: rest⟩ = Except.ok (p, ⟨ps :: rest⟩) ∧
      p ∈ m0) := by
  constructor
  · intro h
    subst h
    rfl
  · intro p ps h
    subst h
    exact ⟨rfl, List.mem_cons_self p ps⟩

/-- Witness for claim C8: empty layer 0 with a non-empty layer 1 fails;
a two-entry layer 0 yields its first pair. -/
theorem popitem_layer_zero_witness :
    ChainMap.popitem (⟨[[], [(1, 2)]]⟩ : ChainMap Nat Nat) = Except.error () ∧
    ChainMap.popitem (⟨[[(5, 6), (7, 8)]]⟩ : ChainMap Nat Nat)
        = Except.ok ((5, 6), ⟨[[(7, 8)]]⟩) :=
  ⟨(popitem_layer_zero [] [[(1, 2)]]).1 rfl,
   ((popitem_layer_zero [(5, 6), (7, 8)] []).2 (5, 6) [(7, 8)] rfl).1⟩

omit [DecidableEq K] in
/-- Claim C9: `clear` empties layer 0 and leaves layers 1..n-1 unchanged. -/
theorem clear_layer_zero (m0 : Dict K V) (rest : List (Dict K V)) :
    (ChainMap.clear ⟨m0 :: rest⟩).maps = ([] : Dict K V) :: rest := rfl

omit [DecidableEq K] in
/-- Claim C10: `parents` of a single-layer instance yields one fresh empty
layer (not a zero-layer instance), because construction re-establishes the
at-least-one-layer invariant; `parents` always satisfies that invariant. -/
theorem parents_keeps_invariant :
    (∀ m : Dict K V, (ChainMap.parents ⟨[m]⟩).maps = [([] : Dict K V)]) ∧
    (∀ c : ChainMap K V, (ChainMap.parents c).maps ≠ []) :=
  ⟨fun _ => rfl, fun c => ChainMap.init_ne_nil (c.maps.drop 1)⟩

end Py2ChainMap
